import Mathlib

set_option maxHeartbeats 1000000

/-!
Shallow embedding of the athkary-bot request pipeline and Hadith API client.

The definitions below translate, function by function, the JavaScript source of
`src/api/hadith.js`, `src/middlewares/rateLimit.js` (shipped unnamed),
`src/middlewares/auth.js` and `src/handlers/search.js`.  Strings are Lean
strings (lists of Unicode scalar values); timestamps are naturals counting
milliseconds; JavaScript `undefined`/`null` field access is modelled with
`Option`.  The Unicode NFKC normalization used by `cleanArabicText` and the
external HTTP endpoint are taken as parameters of the model (fields of `Env`),
so every theorem quantifies over them.  Randomness (`Math.random`) is modelled
by explicit draw parameters.
-/

/-- Character class of the JavaScript regular-expression token `\s`
(whitespace), as used by `trim()` and `replace(/\s+/g, ' ')` in the source. -/
def isJsSpace (c : Char) : Bool :=
  c == ' ' || c == '\t' || c == '\n' || c == '\r' ||
  c.val == 11 || c.val == 12 ||
  c.val == 0xA0 || c.val == 0x1680 ||
  (0x2000 ≤ c.val && c.val ≤ 0x200A) ||
  c.val == 0x2028 || c.val == 0x2029 || c.val == 0x202F ||
  c.val == 0x205F || c.val == 0x3000 || c.val == 0xFEFF

/-- JavaScript `String.prototype.trim`: drop leading and trailing `\s`. -/
def jsTrim (s : String) : String :=
  ⟨((s.data.dropWhile isJsSpace).reverse.dropWhile isJsSpace).reverse⟩

/-- Helper for `collapseWs`: the boolean records whether the previous
character was whitespace (in which case the current run was already
replaced by a single space). -/
def collapseWsAux : Bool → List Char → List Char
  | _, [] => []
  | prev, c :: rest =>
    if isJsSpace c then
      if prev then collapseWsAux true rest
      else ' ' :: collapseWsAux true rest
    else c :: collapseWsAux false rest

/-- JavaScript `replace(/\s+/g, ' ')`: every maximal whitespace run becomes
one space. -/
def collapseWs (s : String) : String := ⟨collapseWsAux false s.data⟩

/-- Zero-width characters removed by `replace(/[​-‍﻿]/g, '')`. -/
def isZeroWidth (c : Char) : Bool :=
  (0x200B ≤ c.val && c.val ≤ 0x200D) || c.val == 0xFEFF

/-- Model of `HadithAPI.cleanText`: trim, collapse whitespace runs, strip zero-width
characters.  Non-string/empty input yields the empty string. -/
def cleanText (s : String) : String :=
  ⟨(collapseWs (jsTrim s)).data.filter (fun c => !isZeroWidth c)⟩

/-- Model of `HadithAPI.cleanArabicText`: like `cleanText` but with a Unicode NFKC
normalization (taken as the parameter `nfkc`) applied between the whitespace
collapse and the zero-width strip, matching the call order in the source. -/
def cleanArabicText (nfkc : String → String) (s : String) : String :=
  ⟨(nfkc (collapseWs (jsTrim s))).data.filter (fun c => !isZeroWidth c)⟩

/-- The fixed `gradeMap` lookup table of `HadithAPI.normalizeGrade`. -/
def gradeMapLookup (s : String) : Option String :=
  if s = "صحيح" then some "صحيح"
  else if s = "حسن" then some "حسن"
  else if s = "ضعيف" then some "ضعيف"
  else if s = "موضوع" then some "موضوع"
  else if s = "sahih" then some "صحيح"
  else if s = "hasan" then some "حسن"
  else if s = "weak" then some "ضعيف"
  else if s = "fabricated" then some "موضوع"
  else none

/-- JavaScript `String.prototype.toLowerCase`, character by character (the
inputs relevant here are ASCII and uncased Arabic letters). -/
def jsToLower (s : String) : String := ⟨s.data.map Char.toLower⟩

/-- Model of `HadithAPI.normalizeGrade`: `null` for a falsy argument, else a lookup of
the lowercased trimmed grade in `gradeMap`, falling back to the trimmed
input. -/
def normalizeGrade (g : String) : Option String :=
  if g = "" then none
  else
    match gradeMapLookup (jsTrim (jsToLower g)) with
    | some v => some v
    | none => some (jsTrim g)

/-- List-level "starts with" used to define substring containment. -/
def startsWithL : List Char → List Char → Bool
  | [], _ => true
  | _ :: _, [] => false
  | a :: as, b :: bs => a == b && startsWithL as bs

/-- JavaScript `String.prototype.startsWith` (character-level). -/
def jsStartsWith (s pre : String) : Bool := startsWithL pre.data s.data

/-- JavaScript `text.split(' ')[0]`: the characters before the first space. -/
def firstWordL : List Char → List Char
  | [] => []
  | c :: rest => if c == ' ' then [] else c :: firstWordL rest

/-- The first space-separated word of a string. -/
def jsFirstWord (s : String) : String := ⟨firstWordL s.data⟩

/-- Helper for `jsSplitOnCommas`: split a character list at every separator,
keeping empty pieces, like `String.prototype.split` with a character class. -/
def splitPredAux (p : Char → Bool) : List Char → List Char → List String
  | [], acc => [⟨acc.reverse⟩]
  | c :: rest, acc =>
    if p c then (⟨acc.reverse⟩ : String) :: splitPredAux p rest []
    else splitPredAux p rest (c :: acc)

/-- JavaScript `keywords.split(/[,،]/)`. -/
def jsSplitOnCommas (s : String) : List String :=
  splitPredAux (fun c => c == ',' || c == '،') s.data []

/-- Helper for `containsSub`: does `pat` occur in the given list? -/
def containsSubAux (pat : List Char) : List Char → Bool
  | [] => startsWithL pat []
  | c :: rest => startsWithL pat (c :: rest) || containsSubAux pat rest

/-- JavaScript `String.prototype.includes`: `pat` occurs in `s`. -/
def containsSub (s pat : String) : Bool := containsSubAux pat.data s.data

/-- The fixed `verifiedSources` allow-list of `HadithAPI.isVerifiedSource`. -/
def verifiedSources : List String :=
  ["صحيح البخاري", "صحيح مسلم", "سنن أبي داود", "جامع الترمذي",
   "سنن النسائي", "سنن ابن ماجه", "مسند أحمد", "موطأ مالك"]

/-- Model of `HadithAPI.isVerifiedSource`: true iff the source label contains one of
the eight canonical collection names. -/
def isVerifiedSource (s : String) : Bool :=
  if s = "" then false else verifiedSources.any (fun v => containsSub s v)

/-- Characters kept unchanged by `generateCacheKey` (`[a-zA-Z0-9:_-]`). -/
def cacheKeyAllowed (c : Char) : Bool :=
  ('a' ≤ c && c ≤ 'z') || ('A' ≤ c && c ≤ 'Z') ||
  ('0' ≤ c && c ≤ '9') || c == ':' || c == '_' || c == '-'

/-- Character-level truncation, faithful to `substring(0, 250)` on the
sanitized key (which is pure ASCII, one UTF-16 unit per character). -/
def strTake (s : String) (n : Nat) : String := ⟨s.data.take n⟩

/-- Model of `HadithAPI.generateCacheKey`: join the operation name and the stringified
parameters with `:` after the `hadith_api` namespace, replace every character
outside `[a-zA-Z0-9:_-]` by `_`, and truncate to 250 characters. -/
def generateCacheKey (op : String) (params : List String) : String :=
  let key := "hadith_api:" ++ op ++ ":" ++ String.intercalate ":" params
  strTake ⟨key.data.map (fun c => if cacheKeyAllowed c then c else '_')⟩ 250

/-- JavaScript string image of a plain options object passed through
`Array.prototype.join`, i.e. `String({})`. -/
def defaultOptsStr : String := "[object Object]"

/-- Shape of one element of the external API's JSON response array.  Each
field is optional; a string-valued field carries the JavaScript string image
of whatever the API sent (numbers appear via `toString`). -/
structure RawHadith where
  id : Option String := none
  hadith : Option String := none
  text : Option String := none
  hadith_ar : Option String := none
  arabic : Option String := none
  rawi : Option String := none
  narrator : Option String := none
  book : Option String := none
  source : Option String := none
  book_name : Option String := none
  chapter : Option String := none
  bab : Option String := none
  hadith_number : Option String := none
  number : Option String := none
  grade : Option String := none
  hukm : Option String := none
  topic : Option String := none
  subject : Option String := none
  category : Option String := none
  keywords : Option (List String ⊕ String) := none
  translation : Option String := none
  explanation : Option String := none
  sharh : Option String := none
deriving Repr, DecidableEq

/-- JavaScript truthiness of an optional string: keep it only when present
and non-empty. -/
def truthyStr (o : Option String) : Option String :=
  match o with
  | some s => if s = "" then none else some s
  | none => none

/-- JavaScript `a || b || ''` over optional string fields. -/
def jsOr2 (a b : Option String) : String :=
  match truthyStr a with
  | some s => s
  | none => (truthyStr b).getD ""

/-- JavaScript `a || b || c || ''` over optional string fields. -/
def jsOr3 (a b c : Option String) : String :=
  match truthyStr a with
  | some s => s
  | none => jsOr2 b c

/-- The canonical stored record produced by `normalizeHadithData`.  The
internal `id` models the `uuidv4()` value as a serial number drawn from the
model state's fresh-id counter; `updatedAt` is set by the upsert's update
branch only, matching the source. -/
structure HadithRecord where
  id : Nat
  dorarId : Option String
  text : String
  arabicText : String
  narrator : String
  source : String
  book : String
  chapter : String
  hadithNumber : Option String
  grade : Option String
  topic : Option String
  keywords : String
  translation : String
  explanation : String
  isVerified : Bool
  updatedAt : Option Nat := none
deriving Repr, DecidableEq

/-- Model of `HadithAPI.extractTopic`: first candidate field that is a non-empty
string with non-empty trim, cleaned; `null` otherwise. -/
def extractTopic (raw : RawHadith) : Option String :=
  let cands := [raw.topic, raw.subject, raw.category, raw.bab, raw.chapter]
  match cands.find? (fun o =>
      match o with
      | some s => !(s == "") && !(jsTrim s == "")
      | none => false) with
  | some (some s) => some (cleanText s)
  | _ => none

/-- JavaScript `Set` insertion: append iff not already present. -/
def insertSet (l : List String) (x : String) : List String :=
  if l.contains x then l else l ++ [x]

/-- Model of `HadithAPI.extractKeywords`: union (insertion-ordered set) of the
explicit keywords (array, or string split on `,`/`،`), the cleaned topic
(added whenever `topic` is truthy, even if it cleans to empty), and the
cleaned narrator; joined with `", "`. -/
def extractKeywords (raw : RawHadith) : String :=
  let fromKw : List String :=
    match raw.keywords with
    | some (Sum.inl a) =>
        a.foldl (fun acc k =>
          let c := cleanText k
          if c = "" then acc else insertSet acc c) []
    | some (Sum.inr s) =>
        if s = "" then []
        else (jsSplitOnCommas s).foldl (fun acc k =>
          let c := cleanText k
          if c = "" then acc else insertSet acc c) []
    | none => []
  let withTopic :=
    match truthyStr raw.topic with
    | some t => insertSet fromKw (cleanText t)
    | none => fromKw
  let withNarr :=
    if (truthyStr raw.rawi).isSome || (truthyStr raw.narrator).isSome then
      insertSet withTopic (cleanText (jsOr2 raw.rawi raw.narrator))
    else withTopic
  String.intercalate ", " withNarr

/-- The object literal built at the top of `HadithAPI.normalizeHadithData`,
with `uid` standing for the freshly generated `uuidv4()`. -/
def buildHadithData (nfkc : String → String) (raw : RawHadith) (uid : Nat) :
    HadithRecord where
  id := uid
  dorarId := truthyStr raw.id
  text := cleanText (jsOr2 raw.hadith raw.text)
  arabicText := cleanArabicText nfkc (jsOr3 raw.hadith_ar raw.arabic raw.hadith)
  narrator := cleanText (jsOr2 raw.rawi raw.narrator)
  source := cleanText (jsOr2 raw.book raw.source)
  book := cleanText (jsOr2 raw.book_name raw.book)
  chapter := cleanText (jsOr2 raw.chapter raw.bab)
  hadithNumber :=
    match truthyStr raw.hadith_number with
    | some s => some s
    | none => truthyStr raw.number
  grade := normalizeGrade (jsOr2 raw.grade raw.hukm)
  topic := extractTopic raw
  keywords := extractKeywords raw
  translation := cleanText (jsOr2 raw.translation none)
  explanation := cleanText (jsOr2 raw.explanation raw.sharh)
  isVerified := isVerifiedSource (jsOr2 raw.book raw.source)

/-- Whether `normalizeHadithData` keeps the element: the essential-data check
`hadithData.text || hadithData.arabicText` (independent of the generated
id). -/
def hasEssential (nfkc : String → String) (raw : RawHadith) : Bool :=
  !((buildHadithData nfkc raw 0).text == "") ||
  !((buildHadithData nfkc raw 0).arabicText == "")

/-- Replace the first list element satisfying `p` (the record addressed by a
unique-key update). -/
def replaceFirst (l : List HadithRecord) (p : HadithRecord → Bool)
    (x : HadithRecord) : List HadithRecord :=
  match l with
  | [] => []
  | a :: rest => if p a then x :: rest else a :: replaceFirst rest p x

/-- Model of `HadithAPI.saveHadithToDatabase`: with a `dorarId`, find the unique
existing record with that `dorarId` and update it with all fields of
`hadithData` plus a fresh `updatedAt` (the source spreads `...hadithData`,
including the newly generated internal id, into the update data); otherwise
create.  Without a `dorarId`, always create. -/
def saveHadithToDatabase (h : HadithRecord) (now : Nat)
    (db : List HadithRecord) : HadithRecord × List HadithRecord :=
  match h.dorarId with
  | some d =>
    if db.any (fun r => r.dorarId == some d) then
      let upd := { h with updatedAt := some now }
      (upd, replaceFirst db (fun r => r.dorarId == some d) upd)
    else (h, db ++ [h])
  | none => (h, db ++ [h])

/-- Environment of the model: the NFKC normalizer, the external API (mapping
trimmed query and serialized options to the response body, `none` for a
non-array body), and the configured cache TTL in seconds. -/
structure Env where
  nfkc : String → String
  oracle : String → String → Option (List RawHadith)
  cacheTtl : Nat

/-- Observable state threaded through the API client: the cache store
(key, cached list, absolute expiry in ms), the hadith table, the fresh-id
counter for `uuidv4()`, and counters of issued HTTP requests and of
`search` invocations. -/
structure ApiState where
  cache : List (String × List HadithRecord × Nat) := []
  db : List HadithRecord := []
  nextId : Nat := 0
  apiCalls : Nat := 0
  searchCalls : Nat := 0
deriving Repr, DecidableEq

/-- Modelled from the spec: the cache store (`db.cache` from the repository's
`src/database` module, not shipped under `src/`).  A read of a missing key is
a miss; a read of an entry whose expiry is not in the future is a miss that
lazily deletes the stale row; otherwise the stored value is returned. -/
def cacheGet (cache : List (String × List HadithRecord × Nat)) (key : String)
    (now : Nat) : Option (List HadithRecord) × List (String × List HadithRecord × Nat) :=
  match cache.find? (fun e => e.1 == key) with
  | none => (none, cache)
  | some e =>
    if now < e.2.2 then (some e.2.1, cache)
    else (none, cache.filter (fun e' => !(e'.1 == key)))

/-- Modelled from the spec: `db.cache.set` overwrites any entry under the
same key with the given value and absolute expiry. -/
def cacheSet (cache : List (String × List HadithRecord × Nat)) (key : String)
    (v : List HadithRecord) (exp : Nat) : List (String × List HadithRecord × Nat) :=
  (key, v, exp) :: cache.filter (fun e => !(e.1 == key))

/-- Model of `HadithAPI.normalizeHadithData`: build the record (consuming a fresh id
unconditionally, as `uuidv4()` is called before the essential-data check),
then save-and-return when essential data is present, else return `null`. -/
def normalizeHadithData (env : Env) (raw : RawHadith) (now : Nat)
    (st : ApiState) : Option HadithRecord × ApiState :=
  let hd := buildHadithData env.nfkc raw st.nextId
  let st' := { st with nextId := st.nextId + 1 }
  if hd.text = "" ∧ hd.arabicText = "" then (none, st')
  else
    let (saved, db') := saveHadithToDatabase hd now st'.db
    (some saved, { st' with db := db' })

/-- Element-wise normalization loop of `HadithAPI.processSearchResponse`:
elements normalizing to `null` are skipped, never aborting the batch. -/
def processList (env : Env) (now : Nat) :
    List RawHadith → ApiState → List HadithRecord × ApiState
  | [], st => ([], st)
  | r :: rest, st =>
    match normalizeHadithData env r now st with
    | (some h, st') =>
      let (hs, st'') := processList env now rest st'
      (h :: hs, st'')
    | (none, st') => processList env now rest st'

/-- Model of `HadithAPI.processSearchResponse`: an invalid (non-array) body yields
`[]`; otherwise each element is normalized independently. -/
def processSearchResponse (env : Env) (respData : Option (List RawHadith))
    (now : Nat) (st : ApiState) : List HadithRecord × ApiState :=
  match respData with
  | none => ([], st)
  | some l => processList env now l st

/-- Error raised inside the `try` block of `HadithAPI.search`. -/
inductive SearchErr
  | invalidInput
deriving Repr, DecidableEq

/-- The `try` block of `HadithAPI.search`: validate the query, compute the
cache key from the operation name, trimmed query and stringified options,
return a cache hit verbatim, otherwise issue the HTTP request, normalize the
body, cache the result list with the configured TTL, and return it. -/
def searchTry (env : Env) (q optsStr : String) (now : Nat) (st : ApiState) :
    Except SearchErr (List HadithRecord × ApiState) :=
  if jsTrim q = "" then .error .invalidInput
  else
    let tq := jsTrim q
    let key := generateCacheKey "search" [tq, optsStr]
    match cacheGet st.cache key now with
    | (some v, c') => .ok (v, { st with cache := c' })
    | (none, c') =>
      let st1 := { st with cache := c', apiCalls := st.apiCalls + 1 }
      let (hs, st2) := processSearchResponse env (env.oracle tq optsStr) now st1
      let st3 := { st2 with cache := cacheSet st2.cache key hs (now + env.cacheTtl * 1000) }
      .ok (hs, st3)

/-- Model of `HadithAPI.search`: the `catch` clause swallows every error (including
the input-validation one) and returns an empty array to the caller, leaving
the state untouched apart from the invocation counter. -/
def search (env : Env) (q optsStr : String) (now : Nat) (st0 : ApiState) :
    List HadithRecord × ApiState :=
  let st := { st0 with searchCalls := st0.searchCalls + 1 }
  match searchTry env q optsStr now st with
  | .ok r => r
  | .error _ => ([], st)

/-- The optional filters argument of `HadithAPI.getRandom` /
`getRandomFromDatabase`. -/
structure Filters where
  topic : Option String := none
  narrator : Option String := none
  source : Option String := none
  grade : Option String := none
deriving Repr, DecidableEq

/-- The `whereClause` built by `HadithAPI.getRandomFromDatabase`: it always
starts from `{ isVerified: true }` and then adds a `contains` condition per
truthy text filter and an equality condition for `grade`. -/
def whereMatch (f : Filters) (r : HadithRecord) : Bool :=
  r.isVerified &&
  (match truthyStr f.topic with
   | some t => match r.topic with
               | some s => containsSub s t
               | none => false
   | none => true) &&
  (match truthyStr f.narrator with
   | some t => containsSub r.narrator t
   | none => true) &&
  (match truthyStr f.source with
   | some t => containsSub r.source t
   | none => true) &&
  (match truthyStr f.grade with
   | some g => r.grade == some g
   | none => true)

/-- The matching predicate that claim C9 speaks about — "the records matching
the given filters" — stated from the claim's own words for comparison with
`whereMatch`, which is what the code actually uses (note the extra
`isVerified` conjunct there). -/
def matchesFiltersSpec (f : Filters) (r : HadithRecord) : Bool :=
  (match truthyStr f.topic with
   | some t => match r.topic with
               | some s => containsSub s t
               | none => false
   | none => true) &&
  (match truthyStr f.narrator with
   | some t => containsSub r.narrator t
   | none => true) &&
  (match truthyStr f.source with
   | some t => containsSub r.source t
   | none => true) &&
  (match truthyStr f.grade with
   | some g => r.grade == some g
   | none => true)

/-- Model of `HadithAPI.getRandomFromDatabase`: count matching rows, bail out on zero,
otherwise fetch the row at the drawn offset (`draw` stands for
`Math.floor(Math.random() * count)`, so `draw < count` in any real run). -/
def getRandomFromDatabase (f : Filters) (draw : Nat)
    (db : List HadithRecord) : Option HadithRecord :=
  let pool := db.filter (whereMatch f)
  if pool.length = 0 then none
  else pool.get? draw

/-- The fixed generic seed terms of `HadithAPI.getRandom`. -/
def randomSearchTerms : List String :=
  ["الصلاة", "الزكاة", "الصيام", "الحج", "البر", "الإيمان"]

/-- Model of `HadithAPI.getRandom`: prefer a stored record chosen by offset `draw1`
among the rows matching the where-clause; only on a miss, run `search` with
the seed term at index `draw2` and pick the result at index `draw3`; return
`null` (not an error) when both paths come up empty.  (The source also
computes an unused `random` cache key, dead code omitted here.) -/
def getRandom (env : Env) (f : Filters) (draw1 draw2 draw3 : Nat)
    (now : Nat) (st : ApiState) : Option HadithRecord × ApiState :=
  match getRandomFromDatabase f draw1 st.db with
  | some h => (some h, st)
  | none =>
    let term := (randomSearchTerms.get? draw2).getD ""
    let (results, st') := search env term defaultOptsStr now st
    (results.get? draw3, st')

/-- Per-key value of the in-memory `rateLimitStore`. -/
structure RLData where
  requests : List Nat := []
  blocked : Bool := false
  blockedUntil : Nat := 0
deriving Repr, DecidableEq

/-- Verdict of one pass through `rateLimitMiddleware` for a key that is
subject to limiting: proceed to `next()`, reject while a temporary block is
active (reporting the remaining whole seconds, rounded up), or reject upon
exceeding the limit. -/
inductive RLResult
  | allowed
  | rejectedBlocked (remainingSecs : Nat)
  | rejectedLimit
deriving Repr, DecidableEq

/-- Core decision of `rateLimitMiddleware` on one (user, operation) key:
(1) an un-expired block rejects immediately with the remaining seconds;
(2) otherwise timestamps older than the window are pruned; (3) if the pruned
count reaches the limit, set a block expiring at `now + window` and reject;
(4) otherwise record the request, clear an expired block, and allow. -/
def rlCheck (limit window now : Nat) (d : RLData) : RLResult × RLData :=
  if d.blocked ∧ now < d.blockedUntil then
    (.rejectedBlocked ((d.blockedUntil - now + 999) / 1000), d)
  else
    let reqs := d.requests.filter (fun ts => now - ts < window)
    if limit ≤ reqs.length then
      (.rejectedLimit, { requests := reqs, blocked := true, blockedUntil := now + window })
    else
      let clear := d.blocked ∧ d.blockedUntil ≤ now
      (.allowed,
       { requests := reqs ++ [now],
         blocked := if clear then false else d.blocked,
         blockedUntil := if clear then 0 else d.blockedUntil })

/-- Run `rlCheck` over a sequence of request timestamps for one key. -/
def rlRun (limit window : Nat) :
    List Nat → RLData → List RLResult × RLData
  | [], d => ([], d)
  | t :: ts, d =>
    let (r, d') := rlCheck limit window t d
    let (rs, d'') := rlRun limit window ts d'
    (r :: rs, d'')

/-- One `(requests, window)` pair of `config.rateLimits`. -/
structure RateLimitConf where
  requests : Nat
  window : Nat
deriving Repr, DecidableEq

/-- The per-category rate-limit configuration consumed by
`determineRateLimit`. -/
structure RateLimits where
  search : RateLimitConf
  random : RateLimitConf
  favorite : RateLimitConf
  admin : RateLimitConf
deriving Repr, DecidableEq

/-- The slice of `config` consumed by the rate limiter. -/
structure BotConfig where
  adminId : Nat
  rateLimits : RateLimits
deriving Repr, DecidableEq

/-- The slice of the per-update context inspected by `determineRateLimit`. -/
structure RLCtx where
  userTelegramId : Option Nat := none
  messageText : Option String := none
  callbackData : Option String := none
deriving Repr, DecidableEq

/-- The `(operation, limit, window)` triple returned by
`determineRateLimit` when limiting applies. -/
structure RLDecision where
  operation : String
  limit : Nat
  window : Nat
deriving Repr, DecidableEq

/-- Code reached after the command `switch` falls through (the non-admin
`/admin` `break`) or when the message is not a slash command: the callback
prefix rules, then the free-text-as-search rule, then no limiting. -/
def rlPostCommand (cfg : BotConfig) (ctx : RLCtx) (isAdm : Bool)
    (mult : Nat) : Option RLDecision :=
  match ctx.callbackData with
  | some data =>
    if jsStartsWith data "search_" || jsStartsWith data "nav_" then
      some ⟨"search", cfg.rateLimits.search.requests * mult, cfg.rateLimits.search.window⟩
    else if jsStartsWith data "favorite_" then
      some ⟨"favorite", cfg.rateLimits.favorite.requests * mult, cfg.rateLimits.favorite.window⟩
    else if jsStartsWith data "admin_" && isAdm then
      some ⟨"admin", cfg.rateLimits.admin.requests, cfg.rateLimits.admin.window⟩
    else
      some ⟨"callback", 100 * mult, 60000⟩
  | none =>
    match ctx.messageText with
    | some t =>
      if !(t == "") && !(jsStartsWith t "/") then
        some ⟨"search", cfg.rateLimits.search.requests * mult, cfg.rateLimits.search.window⟩
      else none
    | none => none

/-- Model of `determineRateLimit`: admin users (matching `config.bot.adminId`) get a
5× multiplier; slash commands are dispatched by their lowercased first word;
the admin category (command and callback alike) uses its configured limit
without the multiplier; a non-admin `/admin` falls through the `switch`. -/
def determineRateLimit (cfg : BotConfig) (ctx : RLCtx) : Option RLDecision :=
  let isAdm := ctx.userTelegramId == some cfg.adminId
  let mult := if isAdm then 5 else 1
  match ctx.messageText with
  | some t =>
    if !(t == "") && jsStartsWith t "/" then
      let command := jsToLower (jsFirstWord t)
      if command = "/search" then
        some ⟨"search", cfg.rateLimits.search.requests * mult, cfg.rateLimits.search.window⟩
      else if command = "/random" then
        some ⟨"random", cfg.rateLimits.random.requests * mult, cfg.rateLimits.random.window⟩
      else if command = "/favorites" ∨ command = "/fav" then
        some ⟨"favorite", cfg.rateLimits.favorite.requests * mult, cfg.rateLimits.favorite.window⟩
      else if command = "/admin" then
        if isAdm then
          some ⟨"admin", cfg.rateLimits.admin.requests, cfg.rateLimits.admin.window⟩
        else rlPostCommand cfg ctx isAdm mult
      else
        some ⟨"command", 50 * mult, 60000⟩
    else rlPostCommand cfg ctx isAdm mult
  | none => rlPostCommand cfg ctx isAdm mult

/-- The sender identity of an inbound update (`ctx.from`). -/
structure TgUser where
  id : Nat
  is_bot : Bool := false
deriving Repr, DecidableEq

/-- The persisted user resolved by `db.user.findOrCreate`. -/
structure DbUser where
  id : Nat
  telegramId : Nat
  isBlocked : Bool := false
  isActive : Bool := true
deriving Repr, DecidableEq

/-- Observable outcome of `authMiddleware` on one update: whether `next()`
was invoked (downstream middleware and feature handlers run only then) and
the reply sent, if any. -/
structure AuthOutcome where
  nextCalled : Bool
  reply : Option String
deriving Repr, DecidableEq

/-- The blocked-user message sent by `authMiddleware`. -/
def blockedUserMessage : String := "⛔ تم حظر حسابك من استخدام البوت"

/-- Model of `authMiddleware` (success path): drop updates without a sender, drop
foreign bot senders, drop when the user lookup fails, short-circuit blocked
users with the blocked message, otherwise continue to `next()`.  The
`isActive` reactivation and the fire-and-forget activity update are side
writes that do not alter this outcome; `lookup` stands for the result of
`db.user.findOrCreate` (the `src/database` module is not shipped under
`src/`). -/
def authMiddleware (botId : Option Nat) (sender : Option TgUser)
    (lookup : Option DbUser) : AuthOutcome :=
  match sender with
  | none => ⟨false, none⟩
  | some u =>
    if u.is_bot && !(botId == some u.id) then ⟨false, none⟩
    else
      match lookup with
      | none => ⟨false, none⟩
      | some usr =>
        if usr.isBlocked then ⟨false, some blockedUserMessage⟩
        else ⟨true, none⟩

/-- Routing decision of `handleTextSearch` in `src/handlers/search.js`: a
trimmed query that is empty or shorter than two characters gets the prompt
and never reaches `hadithAPI.search`. -/
inductive TextSearchStep
  | promptTooShort
  | performSearch (q : String)
deriving Repr, DecidableEq

/-- The guard at the top of `handleTextSearch`. -/
def handleTextSearchRoute (text : String) : TextSearchStep :=
  let q := jsTrim text
  if q = "" ∨ q.length < 2 then .promptTooShort
  else .performSearch q


/-- An environment with identity NFKC and an API that answers every query
with an empty array; used to instantiate theorems at concrete inputs. -/
def envEmptyOracle : Env := ⟨id, fun _ _ => some [], 60⟩

/-- An environment whose API answers one Arabic query with one record and
every other query with a different record, to exercise cache-key
collisions. -/
def envC10 : Env :=
  ⟨id,
   fun q _ =>
     if q = "سلام" then some [{ id := some "1", hadith := some "a" }]
     else some [{ id := some "2", hadith := some "b" }],
   60⟩

/-- A raw element with an external-source id and essential text, used to
evaluate the upsert at a concrete input. -/
def c7raw : RawHadith := { id := some "7", hadith := some "x" }

/-- Two raw elements sharing the external-source id `"5"` but carrying
different field values. -/
def c3raw1 : RawHadith := { id := some "5", hadith := some "a" }

/-- Second normalize-and-save input for the upsert scenario. -/
def c3raw2 : RawHadith := { id := some "5", hadith := some "b" }

/-- A stored record that matches the empty filters but is not verified. -/
def recUnverified : HadithRecord :=
  { id := 0, dorarId := some "9", text := "t", arabicText := "", narrator := "n",
    source := "s", book := "b", chapter := "c", hadithNumber := none,
    grade := none, topic := none, keywords := "", translation := "",
    explanation := "", isVerified := false }

/-- A state whose hadith table holds exactly the unverified record. -/
def stC9 : ApiState := { db := [recUnverified] }

/-- A concrete configuration for the rate-limit decision theorems. -/
def cfgC8 : BotConfig := ⟨1, ⟨⟨30, 60000⟩, ⟨20, 60000⟩, ⟨15, 60000⟩, ⟨10, 60000⟩⟩⟩

/-- The administrator sending the `/admin` command. -/
def ctxC8 : RLCtx := { userTelegramId := some 1, messageText := some "/admin" }

/-- Number of records in a table carrying the given external-source id. -/
def dbCount (db : List HadithRecord) (d : String) : Nat :=
  (db.filter (fun r => r.dorarId == some d)).length

/-- The projections of `buildHadithData` other than `id` do not depend on the
generated id. -/
theorem buildHadithData_text_indep (nfkc : String → String) (raw : RawHadith)
    (n m : Nat) :
    (buildHadithData nfkc raw n).text = (buildHadithData nfkc raw m).text ∧
    (buildHadithData nfkc raw n).arabicText = (buildHadithData nfkc raw m).arabicText ∧
    (buildHadithData nfkc raw n).dorarId = (buildHadithData nfkc raw m).dorarId :=
  ⟨rfl, rfl, rfl⟩

/-- Lemma: `hasEssential` decides the essential-data condition of
`normalizeHadithData`, for any generated id. -/
theorem hasEssential_iff (nfkc : String → String) (raw : RawHadith) (n : Nat) :
    hasEssential nfkc raw = true ↔
      ¬((buildHadithData nfkc raw n).text = "" ∧
        (buildHadithData nfkc raw n).arabicText = "") := by
  have ht : (buildHadithData nfkc raw n).text = (buildHadithData nfkc raw 0).text := rfl
  have ha : (buildHadithData nfkc raw n).arabicText
      = (buildHadithData nfkc raw 0).arabicText := rfl
  rw [ht, ha]
  simp [hasEssential, not_and_or]
  tauto

/-- Lengths of a filter and its complement add up to the list length. -/
theorem filter_pos_neg_length {α : Type} (p : α → Bool) (l : List α) :
    (l.filter p).length + (l.filter (fun a => !(p a))).length = l.length := by
  induction l with
  | nil => rfl
  | cons a rest ih =>
    cases h : p a <;> simp [List.filter_cons, h] <;> omega

/-- The element-wise loop keeps exactly the elements with essential data. -/
theorem processList_length (env : Env) (now : Nat) (l : List RawHadith) :
    ∀ st : ApiState,
      (processList env now l st).1.length
        = (l.filter (fun r => hasEssential env.nfkc r)).length := by
  induction l with
  | nil => intro st; rfl
  | cons r rest ih =>
    intro st
    by_cases h : (buildHadithData env.nfkc r st.nextId).text = ""
        ∧ (buildHadithData env.nfkc r st.nextId).arabicText = ""
    · have hb : hasEssential env.nfkc r = false :=
        Bool.eq_false_iff.mpr (fun hc => ((hasEssential_iff env.nfkc r st.nextId).mp hc) h)
      simp [processList, normalizeHadithData, h, hb, ih]
    · have hb : hasEssential env.nfkc r = true :=
        (hasEssential_iff env.nfkc r st.nextId).mpr h
      simp [processList, normalizeHadithData, h, hb, ih]

/-- C5: for an external response array of `N` elements of which `K` fail
normalization (no essential text after cleaning), `processSearchResponse`
returns exactly `N − K` records; the loop skips failing elements one by one
and, being a total function, never aborts the batch or throws to the
caller. -/
theorem c5_batch_drops_only_failed (env : Env) (resp : List RawHadith)
    (now : Nat) (st : ApiState) :
    (processSearchResponse env (some resp) now st).1.length
      = resp.length - (resp.filter (fun r => !(hasEssential env.nfkc r))).length := by
  have h1 := processList_length env now resp st
  have h2 := filter_pos_neg_length (fun r => hasEssential env.nfkc r) resp
  simp only [processSearchResponse]
  omega

/-- C4 counterexample: at the empty query, the `try` block of `search` does
raise the input-validation error, but the surrounding `catch` swallows it
and the caller receives an ordinary empty list (with no external request
issued and no other state change), so `search` does not fail with
`InvalidInput` toward its caller. -/
theorem c4_invalid_input_swallowed :
    searchTry envEmptyOracle "" defaultOptsStr 0 {} = .error .invalidInput ∧
    search envEmptyOracle "" defaultOptsStr 0 {} = ([], { searchCalls := 1 }) ∧
    (search envEmptyOracle "" defaultOptsStr 0 {}).2.apiCalls = 0 :=
  ⟨rfl, rfl, rfl⟩

/-- C4 (amended): for every query that is empty after trimming, `search`
detects the invalid input, logs it internally, and returns an empty list to
its caller without issuing the external API request or touching the cache or
database; the minimum-length prompt for short queries is enforced by
`handleTextSearch` before `search` is invoked. -/
theorem c4_empty_query_no_request (env : Env) (q optsStr : String)
    (now : Nat) (st : ApiState) (h : jsTrim q = "") :
    search env q optsStr now st
      = ([], { st with searchCalls := st.searchCalls + 1 }) ∧
    handleTextSearchRoute q = .promptTooShort := by
  constructor
  · simp [search, searchTry, h]
  · simp [handleTextSearchRoute, h]

/-- C4 witness: the amended theorem applied to the blank query. -/
theorem c4_empty_query_no_request_witness :
    jsTrim " " = "" ∧
    (search envEmptyOracle " " defaultOptsStr 0 {}
        = ([], { ({} : ApiState) with searchCalls := ({} : ApiState).searchCalls + 1 }) ∧
     handleTextSearchRoute " " = .promptTooShort) :=
  ⟨by decide, c4_empty_query_no_request envEmptyOracle " " defaultOptsStr 0 {} (by decide)⟩

/-- C6: when the resolved user record has `isBlocked = true`, the auth gate
replies with the blocked-user message and does not invoke `next()`, so the
rate limiter, the error middleware, and every feature handler registered
after `authMiddleware` in `src/index.js` never execute for that update. -/
theorem c6_blocked_user_short_circuits (botId : Option Nat) (u : TgUser)
    (usr : DbUser)
    (hbot : (u.is_bot && !(botId == some u.id)) = false)
    (hblocked : usr.isBlocked = true) :
    authMiddleware botId (some u) (some usr)
      = ⟨false, some blockedUserMessage⟩ := by
  simp [authMiddleware, hbot, hblocked]

/-- C6 witness: a blocked human user resolved from a concrete update. -/
theorem c6_blocked_user_short_circuits_witness :
    (((⟨5, false⟩ : TgUser).is_bot && !((some 99 : Option Nat) == some (⟨5, false⟩ : TgUser).id)) = false) ∧
    ((⟨1, 5, true, true⟩ : DbUser).isBlocked = true) ∧
    authMiddleware (some 99) (some ⟨5, false⟩) (some ⟨1, 5, true, true⟩)
      = ⟨false, some blockedUserMessage⟩ :=
  ⟨by decide, by decide,
   c6_blocked_user_short_circuits (some 99) ⟨5, false⟩ ⟨1, 5, true, true⟩ (by decide) (by decide)⟩

/-- C7: evaluating normalize-and-save twice at the same external-source id
shows the stored record's internal id is not stable: after the first call
the stored id is the first fresh id (0), and after the second call the same
stored record carries the second call's fresh id (1), because the update
branch of `saveHadithToDatabase` spreads the whole new `hadithData`
(including the newly generated id) into the update data. -/
theorem c7_internal_id_overwritten :
    ((normalizeHadithData envEmptyOracle c7raw 0 {}).2.db.map (fun r => r.id)) = [0] ∧
    ((normalizeHadithData envEmptyOracle c7raw 1
        (normalizeHadithData envEmptyOracle c7raw 0 {}).2).2.db.map (fun r => r.id)) = [1] ∧
    (0 : Nat) ≠ 1 :=
  ⟨by decide, by decide, by decide⟩

/-- C10: `generateCacheKey` maps every character outside `[a-zA-Z0-9:_-]` to
`_`, so two distinct equal-length Arabic queries share one cache key; after
a search for the first query populates the cache, a search for the second
query within the TTL returns the first query's cached records verbatim and
issues no further external request, even though the API would answer the
second query with different data. -/
theorem c10_cache_key_collision :
    ("سلام" : String) ≠ "صلاة" ∧
    generateCacheKey "search" [jsTrim "سلام", defaultOptsStr]
      = generateCacheKey "search" [jsTrim "صلاة", defaultOptsStr] ∧
    (search envC10 "صلاة" defaultOptsStr 1 (search envC10 "سلام" defaultOptsStr 0 {}).2).1
      = (search envC10 "سلام" defaultOptsStr 0 {}).1 ∧
    (search envC10 "صلاة" defaultOptsStr 1 (search envC10 "سلام" defaultOptsStr 0 {}).2).2.apiCalls = 1 ∧
    (search envC10 "سلام" defaultOptsStr 0 {}).1.map (fun h => h.text) = ["a"] ∧
    (processSearchResponse envC10 (envC10.oracle "صلاة" defaultOptsStr) 1 {}).1.map (fun h => h.text) = ["b"] :=
  ⟨by decide, by decide, by decide, by decide, by decide, by decide⟩

/-- C8 counterexample: for the administrator issuing the `/admin` command,
`determineRateLimit` returns the admin category's configured limit without
the 5× multiplier, so the multiplier does not apply to every operation
category. -/
theorem c8_admin_category_unmultiplied :
    ctxC8.userTelegramId = some cfgC8.adminId ∧
    determineRateLimit cfgC8 ctxC8
      = some ⟨"admin", cfgC8.rateLimits.admin.requests, cfgC8.rateLimits.admin.window⟩ ∧
    cfgC8.rateLimits.admin.requests ≠ cfgC8.rateLimits.admin.requests * 5 :=
  ⟨rfl, by decide, by decide⟩

/-- C8 (amended): for an administrative identity the 5× multiplier applies
to the search, random, favorite, generic-command, generic-callback and
free-text categories, but the admin operation category itself (both the
`/admin` command and `admin_`-prefixed callbacks) uses its configured limit
without the multiplier. -/
theorem c8_admin_multiplier_scope (cfg : BotConfig) :
    determineRateLimit cfg ⟨some cfg.adminId, some "/search", none⟩
      = some ⟨"search", cfg.rateLimits.search.requests * 5, cfg.rateLimits.search.window⟩ ∧
    determineRateLimit cfg ⟨some cfg.adminId, some "/random", none⟩
      = some ⟨"random", cfg.rateLimits.random.requests * 5, cfg.rateLimits.random.window⟩ ∧
    determineRateLimit cfg ⟨some cfg.adminId, some "/favorites", none⟩
      = some ⟨"favorite", cfg.rateLimits.favorite.requests * 5, cfg.rateLimits.favorite.window⟩ ∧
    determineRateLimit cfg ⟨some cfg.adminId, some "/hello", none⟩
      = some ⟨"command", 50 * 5, 60000⟩ ∧
    determineRateLimit cfg ⟨some cfg.adminId, none, some "search_x"⟩
      = some ⟨"search", cfg.rateLimits.search.requests * 5, cfg.rateLimits.search.window⟩ ∧
    determineRateLimit cfg ⟨some cfg.adminId, none, some "favorite_x"⟩
      = some ⟨"favorite", cfg.rateLimits.favorite.requests * 5, cfg.rateLimits.favorite.window⟩ ∧
    determineRateLimit cfg ⟨some cfg.adminId, none, some "other"⟩
      = some ⟨"callback", 100 * 5, 60000⟩ ∧
    determineRateLimit cfg ⟨some cfg.adminId, some "دعاء", none⟩
      = some ⟨"search", cfg.rateLimits.search.requests * 5, cfg.rateLimits.search.window⟩ ∧
    determineRateLimit cfg ⟨some cfg.adminId, some "/admin", none⟩
      = some ⟨"admin", cfg.rateLimits.admin.requests, cfg.rateLimits.admin.window⟩ ∧
    determineRateLimit cfg ⟨some cfg.adminId, none, some "admin_x"⟩
      = some ⟨"admin", cfg.rateLimits.admin.requests, cfg.rateLimits.admin.window⟩ := by
  refine ⟨?_, ?_, ?_, ?_, ?_, ?_, ?_, ?_, ?_, ?_⟩
  · have e0 : jsStartsWith "/search" "/" = true := by decide
    have e2 : jsToLower (jsFirstWord "/search") = "/search" := by decide
    simp [determineRateLimit, e0, e2]
  · have e0 : jsStartsWith "/random" "/" = true := by decide
    have e2 : jsToLower (jsFirstWord "/random") = "/random" := by decide
    simp [determineRateLimit, e0, e2]
  · have e0 : jsStartsWith "/favorites" "/" = true := by decide
    have e2 : jsToLower (jsFirstWord "/favorites") = "/favorites" := by decide
    simp [determineRateLimit, e0, e2]
  · have e0 : jsStartsWith "/hello" "/" = true := by decide
    have e2 : jsToLower (jsFirstWord "/hello") = "/hello" := by decide
    simp [determineRateLimit, e0, e2]
  · have e1 : jsStartsWith "search_x" "search_" = true := by decide
    simp [determineRateLimit, rlPostCommand, e1]
  · have e1 : jsStartsWith "favorite_x" "search_" = false := by decide
    have e2 : jsStartsWith "favorite_x" "nav_" = false := by decide
    have e3 : jsStartsWith "favorite_x" "favorite_" = true := by decide
    simp [determineRateLimit, rlPostCommand, e1, e2, e3]
  · have e1 : jsStartsWith "other" "search_" = false := by decide
    have e2 : jsStartsWith "other" "nav_" = false := by decide
    have e3 : jsStartsWith "other" "favorite_" = false := by decide
    have e4 : jsStartsWith "other" "admin_" = false := by decide
    simp [determineRateLimit, rlPostCommand, e1, e2, e3, e4]
  · have e0 : jsStartsWith "دعاء" "/" = false := by decide
    simp [determineRateLimit, rlPostCommand, e0]
  · have e0 : jsStartsWith "/admin" "/" = true := by decide
    have e2 : jsToLower (jsFirstWord "/admin") = "/admin" := by decide
    simp [determineRateLimit, e0, e2]
  · have e1 : jsStartsWith "admin_x" "search_" = false := by decide
    have e2 : jsStartsWith "admin_x" "nav_" = false := by decide
    have e3 : jsStartsWith "admin_x" "favorite_" = false := by decide
    have e4 : jsStartsWith "admin_x" "admin_" = true := by decide
    simp [determineRateLimit, rlPostCommand, e1, e2, e3, e4]

/-- The normalization loop touches only the hadith table and the fresh-id
counter, never the cache or the request counters. -/
theorem processList_preserves (env : Env) (now : Nat) (l : List RawHadith) :
    ∀ st : ApiState, (processList env now l st).2.cache = st.cache ∧
      (processList env now l st).2.apiCalls = st.apiCalls ∧
      (processList env now l st).2.searchCalls = st.searchCalls := by
  induction l with
  | nil => intro st; exact ⟨rfl, rfl, rfl⟩
  | cons r rest ih =>
    intro st
    by_cases h : (buildHadithData env.nfkc r st.nextId).text = ""
        ∧ (buildHadithData env.nfkc r st.nextId).arabicText = ""
    · simpa [processList, normalizeHadithData, h] using ih _
    · simpa [processList, normalizeHadithData, h] using ih _

/-- Same preservation, stated for `processSearchResponse`. -/
theorem processSearchResponse_preserves (env : Env) (resp : Option (List RawHadith))
    (now : Nat) (st : ApiState) :
    (processSearchResponse env resp now st).2.cache = st.cache ∧
    (processSearchResponse env resp now st).2.apiCalls = st.apiCalls ∧
    (processSearchResponse env resp now st).2.searchCalls = st.searchCalls := by
  cases resp with
  | none => exact ⟨rfl, rfl, rfl⟩
  | some l => exact processList_preserves env now l st

/-- Evaluation of `search` on a cache miss: one request is issued, the
response is normalized, and the resulting list is cached under the search
key with the configured TTL. -/
theorem search_miss_eq (env : Env) (q optsStr : String) (now : Nat) (st0 : ApiState)
    (hne : jsTrim q ≠ "")
    (hmiss : (cacheGet st0.cache (generateCacheKey "search" [jsTrim q, optsStr]) now).1 = none) :
    search env q optsStr now st0
      = (let key := generateCacheKey "search" [jsTrim q, optsStr]
         let st1 : ApiState := { st0 with searchCalls := st0.searchCalls + 1, cache := (cacheGet st0.cache key now).2, apiCalls := st0.apiCalls + 1 }
         let pr := processSearchResponse env (env.oracle (jsTrim q) optsStr) now st1
         (pr.1, { pr.2 with cache := cacheSet pr.2.cache key pr.1 (now + env.cacheTtl * 1000) })) := by
  unfold search searchTry
  rcases hcg : cacheGet st0.cache (generateCacheKey "search" [jsTrim q, optsStr]) now with ⟨o, c2⟩
  rw [hcg] at hmiss
  simp at hmiss
  subst hmiss
  simp [hne, hcg]

/-- Evaluation of `search` on a cache hit: the cached list is returned
verbatim and no request is issued. -/
theorem search_hit_eq (env : Env) (q optsStr : String) (now : Nat) (st0 : ApiState)
    (v : List HadithRecord) (hne : jsTrim q ≠ "")
    (hhit : (cacheGet st0.cache (generateCacheKey "search" [jsTrim q, optsStr]) now).1 = some v) :
    search env q optsStr now st0
      = (v, { st0 with searchCalls := st0.searchCalls + 1, cache := (cacheGet st0.cache (generateCacheKey "search" [jsTrim q, optsStr]) now).2 }) := by
  unfold search searchTry
  rcases hcg : cacheGet st0.cache (generateCacheKey "search" [jsTrim q, optsStr]) now with ⟨o, c2⟩
  rw [hcg] at hhit
  simp at hhit
  subst hhit
  simp [hne, hcg]

/-- Every `search` call, on any path, increments the invocation counter by
exactly one. -/
theorem search_bumps (env : Env) (q optsStr : String) (now : Nat) (st : ApiState) :
    (search env q optsStr now st).2.searchCalls = st.searchCalls + 1 := by
  by_cases hne : jsTrim q = ""
  · simp [search, searchTry, hne]
  · rcases hv : (cacheGet st.cache (generateCacheKey "search" [jsTrim q, optsStr]) now).1 with _ | v
    · rw [search_miss_eq env q optsStr now st hne hv]
      have hp := (processSearchResponse_preserves env (env.oracle (jsTrim q) optsStr) now
        ({ st with searchCalls := st.searchCalls + 1, cache := (cacheGet st.cache (generateCacheKey "search" [jsTrim q, optsStr]) now).2, apiCalls := st.apiCalls + 1 })).2.2
      simpa using hp
    · rw [search_hit_eq env q optsStr now st v hne hv]

/-- C9 (amended): `getRandom` first selects from storage among the records
matching the given filters and flagged `isVerified = true` (the where-clause
always adds that flag), returning the row at the drawn offset; it invokes
the external search fallback, seeded from the fixed term list, exactly when
that verified pool is empty; and it returns `none` rather than an error when
the fallback also finds nothing. -/
theorem c9_random_prefers_storage (env : Env) (f : Filters) (st : ApiState)
    (draw1 draw2 draw3 : Nat) (now : Nat) :
    (st.db.filter (whereMatch f) ≠ [] → draw1 < (st.db.filter (whereMatch f)).length →
        getRandom env f draw1 draw2 draw3 now st
          = ((st.db.filter (whereMatch f)).get? draw1, st)) ∧
    (st.db.filter (whereMatch f) = [] →
        getRandom env f draw1 draw2 draw3 now st
          = ((search env ((randomSearchTerms.get? draw2).getD "") defaultOptsStr now st).1.get? draw3,
             (search env ((randomSearchTerms.get? draw2).getD "") defaultOptsStr now st).2) ∧
        (getRandom env f draw1 draw2 draw3 now st).2.searchCalls = st.searchCalls + 1) ∧
    (st.db.filter (whereMatch f) = [] →
        (search env ((randomSearchTerms.get? draw2).getD "") defaultOptsStr now st).1 = [] →
        (getRandom env f draw1 draw2 draw3 now st).1 = none) := by
  refine ⟨?_, ?_, ?_⟩
  · intro hne hlt
    have hh : (st.db.filter (whereMatch f))[draw1]?
        = some ((st.db.filter (whereMatch f))[draw1]) := List.getElem?_eq_getElem hlt
    simp [getRandom, getRandomFromDatabase, List.length_eq_zero, hne, hh]
  · intro hnil
    have hz : (st.db.filter (whereMatch f)).length = 0 := by simp [hnil]
    constructor
    · simp [getRandom, getRandomFromDatabase, hnil, hz]
    · simp [getRandom, getRandomFromDatabase, hnil, hz, search_bumps]
  · intro hnil hres
    have hz : (st.db.filter (whereMatch f)).length = 0 := by simp [hnil]
    simp only [List.get?_eq_getElem?] at hres
    simp [getRandom, getRandomFromDatabase, hnil, hz]
    rw [hres]
    simp

/-- C9 witness: the amended theorem applied at the unverified-record state
with offset 0. -/
theorem c9_random_prefers_storage_witness :
    (stC9.db.filter (whereMatch {}) ≠ [] → 0 < (stC9.db.filter (whereMatch {})).length →
        getRandom envEmptyOracle {} 0 0 0 0 stC9
          = ((stC9.db.filter (whereMatch {})).get? 0, stC9)) ∧
    (stC9.db.filter (whereMatch {}) = [] →
        getRandom envEmptyOracle {} 0 0 0 0 stC9
          = ((search envEmptyOracle ((randomSearchTerms.get? 0).getD "") defaultOptsStr 0 stC9).1.get? 0,
             (search envEmptyOracle ((randomSearchTerms.get? 0).getD "") defaultOptsStr 0 stC9).2) ∧
        (getRandom envEmptyOracle {} 0 0 0 0 stC9).2.searchCalls = stC9.searchCalls + 1) ∧
    (stC9.db.filter (whereMatch {}) = [] →
        (search envEmptyOracle ((randomSearchTerms.get? 0).getD "") defaultOptsStr 0 stC9).1 = [] →
        (getRandom envEmptyOracle {} 0 0 0 0 stC9).1 = none) :=
  c9_random_prefers_storage envEmptyOracle {} stC9 0 0 0 0

/-- C9 counterexample: with one stored record that matches the empty filters
but is unverified, `getRandom` ignores it — the where-clause adds
`isVerified: true` — and invokes the external search fallback, returning
`none`; so the selection pool is not "exactly the records matching the given
filters" and the fallback is not restricted to the no-matching-record
case. -/
theorem c9_unverified_record_skipped :
    matchesFiltersSpec {} recUnverified = true ∧
    (getRandom envEmptyOracle {} 0 0 0 0 stC9).2.searchCalls = stC9.searchCalls + 1 ∧
    (getRandom envEmptyOracle {} 0 0 0 0 stC9).1 = none :=
  ⟨by decide, by decide, by decide⟩

/-- Looking up a key right after `cacheSet` stores it finds the new entry. -/
theorem find?_cacheSet (c : List (String × List HadithRecord × Nat)) (k : String)
    (v : List HadithRecord) (e : Nat) :
    (cacheSet c k v e).find? (fun x => x.1 == k) = some (k, v, e) := by
  simp [cacheSet, List.find?_cons]

/-- A `cacheGet` before the stored expiry is a hit returning the stored
value and leaving the store unchanged. -/
theorem cacheGet_set_hit (c : List (String × List HadithRecord × Nat)) (k : String)
    (v : List HadithRecord) (e now : Nat) (h : now < e) :
    cacheGet (cacheSet c k v e) k now = (some v, cacheSet c k v e) := by
  simp [cacheGet, cacheSet, List.find?_cons, h]

/-- C1: for a query of trimmed length at least two whose cache lookup
misses, two consecutive `search` calls with identical query and options
issue exactly one external request: the first call requests, normalizes and
caches the result list under the key derived from the operation name, the
trimmed query and the stringified options, with expiry `t1 + cacheTtl·1000`;
the second call within the TTL window returns that cached list verbatim and
leaves the request counter untouched. -/
theorem c1_second_search_cached (env : Env) (q optsStr : String)
    (t1 t2 : Nat) (st0 : ApiState)
    (hlen : 2 ≤ (jsTrim q).length)
    (hmiss : (cacheGet st0.cache (generateCacheKey "search" [jsTrim q, optsStr]) t1).1 = none)
    (ht : t1 ≤ t2) (httl : t2 < t1 + env.cacheTtl * 1000) :
    (search env q optsStr t1 st0).2.apiCalls = st0.apiCalls + 1 ∧
    (search env q optsStr t1 st0).1
      = (processSearchResponse env (env.oracle (jsTrim q) optsStr) t1
          { st0 with searchCalls := st0.searchCalls + 1, cache := (cacheGet st0.cache (generateCacheKey "search" [jsTrim q, optsStr]) t1).2, apiCalls := st0.apiCalls + 1 }).1 ∧
    ((search env q optsStr t1 st0).2.cache.find?
        (fun x => x.1 == generateCacheKey "search" [jsTrim q, optsStr]))
      = some (generateCacheKey "search" [jsTrim q, optsStr], (search env q optsStr t1 st0).1, t1 + env.cacheTtl * 1000) ∧
    (search env q optsStr t2 (search env q optsStr t1 st0).2).1 = (search env q optsStr t1 st0).1 ∧
    (search env q optsStr t2 (search env q optsStr t1 st0).2).2.apiCalls
      = (search env q optsStr t1 st0).2.apiCalls := by
  have hne : jsTrim q ≠ "" := by
    intro h
    rw [h] at hlen
    simp [String.length] at hlen
  have hm := search_miss_eq env q optsStr t1 st0 hne hmiss
  set key := generateCacheKey "search" [jsTrim q, optsStr] with hkey
  set st1 : ApiState := { st0 with searchCalls := st0.searchCalls + 1, cache := (cacheGet st0.cache key t1).2, apiCalls := st0.apiCalls + 1 } with hst1
  set pr := processSearchResponse env (env.oracle (jsTrim q) optsStr) t1 st1 with hpr
  have hm' : search env q optsStr t1 st0
      = (pr.1, { pr.2 with cache := cacheSet pr.2.cache key pr.1 (t1 + env.cacheTtl * 1000) }) := hm
  have hpres := processSearchResponse_preserves env (env.oracle (jsTrim q) optsStr) t1 st1
  have hapi1 : (search env q optsStr t1 st0).2.apiCalls = st0.apiCalls + 1 := by
    rw [hm']
    exact hpres.2.1
  refine ⟨hapi1, ?_, ?_, ?_, ?_⟩
  · rw [hm']
  · rw [hm']
    exact find?_cacheSet pr.2.cache key pr.1 (t1 + env.cacheTtl * 1000)
  · have hhit := cacheGet_set_hit pr.2.cache key pr.1 (t1 + env.cacheTtl * 1000) t2 httl
    have h2 := search_hit_eq env q optsStr t2 (search env q optsStr t1 st0).2 pr.1 hne
      (by rw [hm']; rw [hhit])
    rw [h2, hm']
  · have hhit := cacheGet_set_hit pr.2.cache key pr.1 (t1 + env.cacheTtl * 1000) t2 httl
    have h2 := search_hit_eq env q optsStr t2 (search env q optsStr t1 st0).2 pr.1 hne
      (by rw [hm']; rw [hhit])
    rw [h2, hm']

/-- C1 witness: the theorem applied to the query `"ab"` at times 0 and 1 on
the empty state. -/
theorem c1_second_search_cached_witness :
    (2 ≤ (jsTrim "ab").length) ∧
    ((cacheGet ({} : ApiState).cache (generateCacheKey "search" [jsTrim "ab", defaultOptsStr]) 0).1 = none) ∧
    ((search envEmptyOracle "ab" defaultOptsStr 0 {}).2.apiCalls = ({} : ApiState).apiCalls + 1 ∧
     (search envEmptyOracle "ab" defaultOptsStr 0 {}).1
       = (processSearchResponse envEmptyOracle (envEmptyOracle.oracle (jsTrim "ab") defaultOptsStr) 0
           { ({} : ApiState) with searchCalls := ({} : ApiState).searchCalls + 1, cache := (cacheGet ({} : ApiState).cache (generateCacheKey "search" [jsTrim "ab", defaultOptsStr]) 0).2, apiCalls := ({} : ApiState).apiCalls + 1 }).1 ∧
     ((search envEmptyOracle "ab" defaultOptsStr 0 {}).2.cache.find?
         (fun x => x.1 == generateCacheKey "search" [jsTrim "ab", defaultOptsStr]))
       = some (generateCacheKey "search" [jsTrim "ab", defaultOptsStr], (search envEmptyOracle "ab" defaultOptsStr 0 {}).1, 0 + envEmptyOracle.cacheTtl * 1000) ∧
     (search envEmptyOracle "ab" defaultOptsStr 1 (search envEmptyOracle "ab" defaultOptsStr 0 {}).2).1
       = (search envEmptyOracle "ab" defaultOptsStr 0 {}).1 ∧
     (search envEmptyOracle "ab" defaultOptsStr 1 (search envEmptyOracle "ab" defaultOptsStr 0 {}).2).2.apiCalls
       = (search envEmptyOracle "ab" defaultOptsStr 0 {}).2.apiCalls) :=
  ⟨by decide, by decide,
   c1_second_search_cached envEmptyOracle "ab" defaultOptsStr 0 1 {} (by decide) (by decide)
     (by decide) (by decide)⟩

/-- While nothing has been pruned or blocked, each check within the window
appends its timestamp and allows, for as long as the count stays below the
limit. -/
theorem rlRun_all_allowed (limit window lo hi : Nat) (ts : List Nat) :
    ∀ acc : List Nat,
    (∀ t ∈ ts, lo ≤ t ∧ t ≤ hi) →
    (∀ t ∈ acc, lo ≤ t ∧ t ≤ hi) →
    hi - lo < window →
    acc.length + ts.length ≤ limit →
    rlRun limit window ts ⟨acc, false, 0⟩
      = (ts.map (fun _ => RLResult.allowed), ⟨acc ++ ts, false, 0⟩) := by
  induction ts with
  | nil => intro acc _ _ _ _; simp [rlRun]
  | cons t rest ih =>
    intro acc hts hacc hwin hlen
    have htb := hts t (List.mem_cons_self t rest)
    have hfil : acc.filter (fun a => t - a < window) = acc := by
      apply List.filter_eq_self.mpr
      intro a ha
      have := hacc a ha
      simp only [decide_eq_true_eq]
      omega
    have hlt : ¬ (limit ≤ acc.length) := by
      simp at hlen
      omega
    have hstep : rlCheck limit window t ⟨acc, false, 0⟩
        = (.allowed, ⟨acc ++ [t], false, 0⟩) := by
      simp [rlCheck, hfil, hlt]
    have ihr := ih (acc ++ [t])
      (fun x hx => hts x (List.mem_cons_of_mem t hx))
      (by
        intro x hx
        rcases List.mem_append.mp hx with h | h
        · exact hacc x h
        · simp at h
          subst h
          exact htb)
      hwin
      (by simp at hlen ⊢; omega)
    simp [rlRun, hstep, ihr]

/-- C2: submitting `limit` requests inside one window allows all of them;
the (`limit`+1)th check (at `tb`, within the window of all previous
requests) prunes nothing, finds the limit reached, rejects, and sets a block
expiring at `tb + window`; while that block is active every check is
rejected with the remaining whole seconds and leaves the state unchanged;
and the first check at or after `tb + window` prunes all expired timestamps,
allows, records only the new timestamp, and clears the block. -/
theorem c2_sliding_window_block (limit window lo : Nat) (ts : List Nat) (tb : Nat)
    (hlim : 1 ≤ limit) (hwin : 1 ≤ window)
    (hlen : ts.length = limit)
    (hbound : ∀ t ∈ ts, lo ≤ t ∧ t ≤ tb)
    (hlo : lo ≤ tb) (hwide : tb - lo < window) :
    (∀ r ∈ (rlRun limit window ts ⟨[], false, 0⟩).1, r = RLResult.allowed) ∧
    (rlCheck limit window tb (rlRun limit window ts ⟨[], false, 0⟩).2).1 = RLResult.rejectedLimit ∧
    (rlCheck limit window tb (rlRun limit window ts ⟨[], false, 0⟩).2).2
      = ⟨ts, true, tb + window⟩ ∧
    (∀ t2, tb ≤ t2 → t2 < tb + window →
      rlCheck limit window t2 ⟨ts, true, tb + window⟩
        = (RLResult.rejectedBlocked ((tb + window - t2 + 999) / 1000), ⟨ts, true, tb + window⟩)) ∧
    (∀ t3, tb + window ≤ t3 →
      rlCheck limit window t3 ⟨ts, true, tb + window⟩
        = (RLResult.allowed, ⟨[t3], false, 0⟩)) := by
  have hrun := rlRun_all_allowed limit window lo tb ts [] hbound (by simp) hwide (by simp [hlen])
  have hfil : ts.filter (fun a => tb - a < window) = ts := by
    apply List.filter_eq_self.mpr
    intro a ha
    have := hbound a ha
    simp only [decide_eq_true_eq]
    omega
  refine ⟨?_, ?_, ?_, ?_, ?_⟩
  · rw [hrun]
    intro r hr
    simp at hr
    exact hr.2
  · rw [hrun]
    simp [rlCheck, hfil, hlen]
  · rw [hrun]
    simp [rlCheck, hfil, hlen]
  · intro t2 h2a h2b
    simp [rlCheck, h2b]
  · intro t3 h3
    have hnb : ¬ (true = true ∧ t3 < tb + window) := by
      intro h
      omega
    have hfil3 : ts.filter (fun a => t3 - a < window) = [] := by
      apply List.filter_eq_nil_iff.mpr
      intro a ha
      have := hbound a ha
      simp only [decide_eq_true_eq]
      omega
    have hcl : (true = true ∧ tb + window ≤ t3) := ⟨rfl, h3⟩
    simp [rlCheck, hnb, hfil3, hcl]
    rw [if_neg (by omega), if_neg (by omega)]

/-- C2 witness: one allowed request at time 0, the second request at time 5
blocked until 1005, a rejected check at 600, recovery at 1005. -/
theorem c2_sliding_window_block_witness :
    (1 ≤ 1) ∧ ([(0 : Nat)].length = 1) ∧
    ((∀ r ∈ (rlRun 1 1000 [0] ⟨[], false, 0⟩).1, r = RLResult.allowed) ∧
     (rlCheck 1 1000 5 (rlRun 1 1000 [0] ⟨[], false, 0⟩).2).1 = RLResult.rejectedLimit ∧
     (rlCheck 1 1000 5 (rlRun 1 1000 [0] ⟨[], false, 0⟩).2).2 = ⟨[0], true, 5 + 1000⟩ ∧
     (∀ t2, 5 ≤ t2 → t2 < 5 + 1000 →
       rlCheck 1 1000 t2 ⟨[0], true, 5 + 1000⟩
         = (RLResult.rejectedBlocked ((5 + 1000 - t2 + 999) / 1000), ⟨[0], true, 5 + 1000⟩)) ∧
     (∀ t3, 5 + 1000 ≤ t3 →
       rlCheck 1 1000 t3 ⟨[0], true, 5 + 1000⟩
         = (RLResult.allowed, ⟨[t3], false, 0⟩))) :=
  ⟨by decide, by decide,
   c2_sliding_window_block 1 1000 0 [0] 5 (by decide) (by decide) (by decide)
     (by decide) (by decide) (by decide)⟩

/-- A unique-key update that keeps the key preserves, for every key, the
number of records carrying that key. -/
theorem replaceFirst_count (l : List HadithRecord) (e : String) (x : HadithRecord)
    (hx : x.dorarId = some e) (d' : String) :
    dbCount (replaceFirst l (fun r => r.dorarId == some e) x) d' = dbCount l d' := by
  induction l with
  | nil => rfl
  | cons a rest ih =>
    by_cases h : (a.dorarId == some e) = true
    · have ha : a.dorarId = some e := by simpa using h
      simp [replaceFirst, h, dbCount, List.filter_cons, ha, hx]
      split <;> simp
    · simp [replaceFirst, h, dbCount, List.filter_cons]
      have ih2 := ih
      simp [dbCount] at ih2
      split <;> simp [ih2]

/-- Lemma: `saveHadithToDatabase` preserves the at-most-one-record-per-dorarId
invariant. -/
theorem save_atMostOne (h : HadithRecord) (now : Nat) (db : List HadithRecord) (d' : String)
    (hle : dbCount db d' ≤ 1) :
    dbCount (saveHadithToDatabase h now db).2 d' ≤ 1 := by
  unfold saveHadithToDatabase
  cases hid : h.dorarId with
  | none =>
    simpa [dbCount, List.filter_append, List.filter_cons, hid] using hle
  | some e =>
    by_cases hex : db.any (fun r => r.dorarId == some e) = true
    · simp only [hex, if_pos]
      have hrc := replaceFirst_count db e { h with updatedAt := some now } (by simp [hid]) d'
      rw [hid] at hrc
      simpa using le_trans (le_of_eq hrc) hle
    · simp only [Bool.not_eq_true] at hex
      by_cases hde : d' = e
      · subst hde
        have hnil : db.filter (fun r => r.dorarId == some d') = [] :=
          List.filter_eq_nil_iff.mpr (fun r hr => by
            have := List.any_eq_false.mp hex r hr
            simpa using this)
        simp [hex, dbCount, List.filter_append, hnil, List.filter_cons, hid]
      · have hne : (h.dorarId == some d') = false := by
          simp [hid, hde]
          exact fun hc => hde (hc.symm)
        simpa [hex, dbCount, List.filter_append, List.filter_cons, hne] using hle

/-- Lemma: `normalizeHadithData` preserves the at-most-one-record-per-dorarId
invariant. -/
theorem normalize_atMostOne (env : Env) (raw : RawHadith) (now : Nat) (st : ApiState)
    (d' : String) (hle : dbCount st.db d' ≤ 1) :
    dbCount (normalizeHadithData env raw now st).2.db d' ≤ 1 := by
  unfold normalizeHadithData
  by_cases h : (buildHadithData env.nfkc raw st.nextId).text = ""
      ∧ (buildHadithData env.nfkc raw st.nextId).arabicText = ""
  · simpa [h] using hle
  · simp only [h, if_neg]
    simpa using save_atMostOne (buildHadithData env.nfkc raw st.nextId) now st.db d' hle

/-- C3: normalize-and-save is an upsert keyed on the external-source id:
saving preserves the at-most-one-record-per-dorarId invariant, and two
normalize-and-save calls with the same external-source id starting from an
empty table leave exactly one stored record, whose fields are the second
call's values (with `updatedAt` stamped by the update branch). -/
theorem c3_upsert_by_dorar_id (env : Env) (r1 r2 : RawHadith) (d : String)
    (now1 now2 : Nat) (st0 : ApiState)
    (h1 : truthyStr r1.id = some d) (h2 : truthyStr r2.id = some d)
    (he1 : hasEssential env.nfkc r1 = true) (he2 : hasEssential env.nfkc r2 = true)
    (hdb : st0.db = []) :
    dbCount (normalizeHadithData env r2 now2 (normalizeHadithData env r1 now1 st0).2).2.db d = 1 ∧
    (normalizeHadithData env r2 now2 (normalizeHadithData env r1 now1 st0).2).2.db
      = [{ buildHadithData env.nfkc r2 (st0.nextId + 1) with updatedAt := some now2 }] ∧
    (normalizeHadithData env r2 now2 (normalizeHadithData env r1 now1 st0).2).1
      = some { buildHadithData env.nfkc r2 (st0.nextId + 1) with updatedAt := some now2 } ∧
    (∀ (st : ApiState) (raw : RawHadith) (dx : String) (nowx : Nat),
       dbCount st.db dx ≤ 1 → dbCount (normalizeHadithData env raw nowx st).2.db dx ≤ 1) := by
  have hc1 : ¬ ((buildHadithData env.nfkc r1 st0.nextId).text = ""
      ∧ (buildHadithData env.nfkc r1 st0.nextId).arabicText = "") :=
    (hasEssential_iff env.nfkc r1 st0.nextId).mp he1
  have hd1 : (buildHadithData env.nfkc r1 st0.nextId).dorarId = some d := h1
  have e1 : normalizeHadithData env r1 now1 st0
      = (some (buildHadithData env.nfkc r1 st0.nextId),
         { st0 with nextId := st0.nextId + 1, db := [buildHadithData env.nfkc r1 st0.nextId] }) := by
    simp [normalizeHadithData, hc1, saveHadithToDatabase, hd1, hdb]
  have hc2 : ¬ ((buildHadithData env.nfkc r2 (st0.nextId + 1)).text = ""
      ∧ (buildHadithData env.nfkc r2 (st0.nextId + 1)).arabicText = "") :=
    (hasEssential_iff env.nfkc r2 (st0.nextId + 1)).mp he2
  have hd2 : (buildHadithData env.nfkc r2 (st0.nextId + 1)).dorarId = some d := h2
  have e2 : normalizeHadithData env r2 now2 (normalizeHadithData env r1 now1 st0).2
      = (some { buildHadithData env.nfkc r2 (st0.nextId + 1) with updatedAt := some now2 },
         { st0 with nextId := st0.nextId + 2, db := [{ buildHadithData env.nfkc r2 (st0.nextId + 1) with updatedAt := some now2 }] }) := by
    rw [e1]
    simp [normalizeHadithData, hc2, saveHadithToDatabase, hd2, hd1, replaceFirst]
  refine ⟨?_, ?_, ?_, ?_⟩
  · rw [e2]
    simp [dbCount, List.filter_cons, hd2]
  · rw [e2]
  · rw [e2]
  · intro st raw dx nowx hle
    exact normalize_atMostOne env raw nowx st dx hle

/-- C3 witness: the upsert theorem applied to two concrete raw elements
sharing the external-source id `"5"` with different texts. -/
theorem c3_upsert_by_dorar_id_witness :
    (truthyStr c3raw1.id = some "5") ∧ (hasEssential envEmptyOracle.nfkc c3raw1 = true) ∧
    (dbCount (normalizeHadithData envEmptyOracle c3raw2 1 (normalizeHadithData envEmptyOracle c3raw1 0 {}).2).2.db "5" = 1 ∧
     (normalizeHadithData envEmptyOracle c3raw2 1 (normalizeHadithData envEmptyOracle c3raw1 0 {}).2).2.db
       = [{ buildHadithData envEmptyOracle.nfkc c3raw2 (({} : ApiState).nextId + 1) with updatedAt := some 1 }] ∧
     (normalizeHadithData envEmptyOracle c3raw2 1 (normalizeHadithData envEmptyOracle c3raw1 0 {}).2).1
       = some { buildHadithData envEmptyOracle.nfkc c3raw2 (({} : ApiState).nextId + 1) with updatedAt := some 1 } ∧
     (∀ (st : ApiState) (raw : RawHadith) (dx : String) (nowx : Nat),
        dbCount st.db dx ≤ 1 → dbCount (normalizeHadithData envEmptyOracle raw nowx st).2.db dx ≤ 1)) :=
  ⟨by decide, by decide,
   c3_upsert_by_dorar_id envEmptyOracle c3raw1 c3raw2 "5" 0 1 {} (by decide) (by decide)
     (by decide) (by decide) rfl⟩
